import Mathlib

/-!
Verification of the container-image storage and trust core: a shallow
embedding of the reference model, the OCI image destination, the
manifest and descriptor store, and the detached-signature verifier,
together with theorems settling the specified properties.

Go strings are modelled as Lean String (or List Char where character
level reasoning is needed), byte sequences as List Nat, and fallible
operations as Except or Option values.  Filesystem and collaborator
outcomes (temp file creation, rename, the GPG mechanism, the JSON
codec) enter through explicit environment records or function
parameters, so every definition stays executable.
-/

/-! ## Shared string helpers (models of the Go strings package functions) -/

/-- Model of strings.Split for a single-character separator: splitting the
empty list yields one empty field, matching the Go behavior for a
non-empty separator. -/
def splitCharList (c : Char) : List Char → List (List Char)
  | [] => [[]]
  | x :: xs =>
    if x == c then [] :: splitCharList c xs
    else
      match splitCharList c xs with
      | [] => [[x]]
      | y :: ys => (x :: y) :: ys

/-- Model of strings.Split on a String, single-character separator. -/
def goSplit (c : Char) (s : String) : List String :=
  (splitCharList c s.data).map (fun l => ⟨l⟩)

/-- Model of strings.Replace with count -1 for single-character old and new
values, as used for the digest path separator rewrite. -/
def goReplaceChar (old new : Char) (s : String) : String :=
  ⟨s.data.map (fun ch => if ch == old then new else ch)⟩

/-- Model of strings.Join. -/
def goJoin (sep : String) : List String → String
  | [] => ""
  | [s] => s
  | s :: rest => s ++ sep ++ goJoin sep rest

/-! ## Digest codec -/

/-- Modelled from the spec: ComputeDigest of section 4.1, the digest
computation of the manifest package, which is not present under src.
The spec requires a deterministic, pure function over the exact byte
content, tagged with the algorithm name, that rejects input that is
structurally invalid for digesting; the concrete letter-fold below
stands in for the hash algorithm family, and the empty byte sequence
stands in for structurally invalid input. -/
def computeDigest (b : List Nat) : Option String :=
  if b = [] then none
  else some ("sha256:" ++ String.mk (b.map (fun n => Char.ofNat (97 + n % 26))))

/-! ## OCI image destination (src/unnamed/part_002 and src/oci/oci_dest.go) -/

namespace OciDest

/-- Environment of one PutBlob call from src/unnamed/part_002: the outcome
of each filesystem step and of the source stream.  copyBytes is the byte
count io.Copy reports, copyErr the read error it reports, if any. -/
structure PutBlobEnv where
  blobPathRes : Except String String
  ensureParentRes : Option String
  tempFileRes : Except String String
  copyBytes : Int
  copyErr : Option String
  syncErr : Option String
  chmodErr : Option String
  renameErr : Option String
deriving Repr

/-- Observable outcome of one PutBlob call: the returned error if any,
whether the staging file was created, whether it was removed by the
deferred cleanup, and whether it was renamed into the final
digest-addressed blob path. -/
structure PutBlobRun where
  result : Option String
  tempCreated : Bool
  tempRemoved : Bool
  renamed : Bool
deriving DecidableEq, Repr

/-- Embedding of ociImageDestination.PutBlob from src/unnamed/part_002
lines 53-91.  The deferred cleanup removes the staging file whenever the
success flag was not set; the flag is set only after the rename call
returns.  Note the rename branch: on a rename error the source returns
nil, so the run reports no error even though the blob was never
published. -/
def putBlob (env : PutBlobEnv) (expectedSize : Int) : PutBlobRun :=
  match env.blobPathRes with
  | .error e => ⟨some e, false, false, false⟩
  | .ok _ =>
    match env.ensureParentRes with
    | some e => ⟨some e, false, false, false⟩
    | none =>
      match env.tempFileRes with
      | .error e => ⟨some e, false, false, false⟩
      | .ok _ =>
        match env.copyErr with
        | some e => ⟨some e, true, true, false⟩
        | none =>
          if expectedSize != -1 && env.copyBytes != expectedSize then
            ⟨some "Size mismatch when copying", true, true, false⟩
          else
            match env.syncErr with
            | some e => ⟨some e, true, true, false⟩
            | none =>
              match env.chmodErr with
              | some e => ⟨some e, true, true, false⟩
              | none =>
                match env.renameErr with
                | some _ => ⟨none, true, true, false⟩
                | none => ⟨none, true, false, true⟩

/-- MIME type constant of the manifest package (value fixed by the Docker
registry protocol; the package itself is not under src). -/
def dockerV2Schema1MIMEType : String :=
  "application/vnd.docker.distribution.manifest.v1+json"

/-- MIME type constant of the manifest package. -/
def dockerV2Schema2MIMEType : String :=
  "application/vnd.docker.distribution.manifest.v2+json"

/-- MIME type constant of the manifest package. -/
def dockerV2ListMIMEType : String :=
  "application/vnd.docker.distribution.manifest.list.v2+json"

/-- MIME type constant of the manifest package. -/
def ociV1ImageManifestMIMEType : String :=
  "application/vnd.oci.image.manifest.v1+json"

/-- MIME type constant of the manifest package. -/
def ociV1ImageManifestListMIMEType : String :=
  "application/vnd.oci.image.manifest.list.v1+json"

/-- MIME type constant of the manifest package. -/
def ociV1ImageSerializationMIMEType : String :=
  "application/vnd.oci.image.serialization.rootfs.tar.gzip"

/-- MIME type constant of the manifest package. -/
def ociV1ImageSerializationConfigMIMEType : String :=
  "application/vnd.oci.image.serialization.config.v1+json"

/-- Embedding of the descriptor struct of the OCI destination: the record
persisted per committed manifest. -/
structure OciDescriptor where
  digest : String := ""
  mediaType : String := ""
  size : Int := 0
deriving DecidableEq, Repr

/-- Embedding of the ociManifest struct; the Go zero value corresponds to
the default field values here. -/
structure OciManifestRec where
  schemaVersion : Int := 0
  mediaType : String := ""
  config : OciDescriptor := {}
  layers : List OciDescriptor := []
  annotations : List (String × String) := []
deriving DecidableEq, Repr

/-- Embedding of createManifest (identical in src/unnamed/part_002 lines
93-125 and src/oci/oci_dest.go lines 45-77).  The media type detection
and the JSON codec live outside src, so they are passed in: guess models
manifest.GuessMIMEType, unm models json.Unmarshal into an ociManifest,
mar models json.Marshal of one.  On the OCI manifest branch the source
returns the media type field of the never-unmarshalled zero value om,
which is the empty string. -/
def createManifest (guess : List Nat → String) (unm : List Nat → Option OciManifestRec)
    (mar : OciManifestRec → Option (List Nat)) (m : List Nat) :
    Except String (List Nat × String) :=
  let om : OciManifestRec := {}
  let mt := guess m
  if mt == dockerV2Schema1MIMEType then
    .error "cannot create OCI manifest from Docker V2 schema 1 manifest"
  else if mt == dockerV2Schema2MIMEType then
    match unm m with
    | none => .error "json unmarshal error"
    | some om2 =>
      let om3 := { om2 with
        mediaType := ociV1ImageManifestMIMEType
        layers := om2.layers.map (fun l => { l with mediaType := ociV1ImageSerializationMIMEType })
        config := { om2.config with mediaType := ociV1ImageSerializationConfigMIMEType } }
      match mar om3 with
      | none => .error "json marshal error"
      | some b => .ok (b, om3.mediaType)
  else if mt == dockerV2ListMIMEType then
    .error "cannot create OCI manifest from Docker V2 schema 2 manifest list"
  else if mt == ociV1ImageManifestListMIMEType then
    .error "cannot create OCI manifest from OCI manifest list"
  else if mt == ociV1ImageManifestMIMEType then
    .ok (m, om.mediaType)
  else .error "Unrecognized manifest media type"

/-- Embedding of the ociReference fields the destination uses. -/
structure OciRef where
  dir : String
  tag : String
deriving DecidableEq, Repr

/-- Embedding of ociLayoutPath from src/oci/oci_dest.go; filepath.Join is
modelled as separator concatenation (paths are taken cleaned). -/
def ociLayoutPath (dir : String) : String := dir ++ "/oci-layout"

/-- Embedding of blobPath from src/oci/oci_dest.go: the digest-addressed
path, with the algorithm separator rewritten for the filesystem. -/
def blobPath (dir : String) (digest : String) : String :=
  dir ++ "/blobs/" ++ goReplaceChar ':' '-' digest

/-- Embedding of descriptorPath from src/oci/oci_dest.go: the
tag-addressed path of the descriptor record. -/
def descriptorPath (dir : String) (tag : String) : String :=
  dir ++ "/refs/" ++ tag

/-- Content of the oci-layout marker file written by PutManifest. -/
def ociLayoutContent : String := "\x7b\"imageLayoutVersion\": \"1.0.0\"\x7d"

/-- One filesystem write performed by PutManifest.  The descriptor record
is kept structurally rather than as marshalled bytes, since the claims
are about its fields. -/
inductive FileWrite
  | blob (path : String) (content : List Nat)
  | layout (path : String) (content : String)
  | descRecord (path : String) (d : OciDescriptor)
deriving DecidableEq, Repr

/-- Environment of one PutManifest call: the outcome of the directory
creation and of each file write. -/
structure PutManifestEnv where
  ensureRefsDirErr : Option String := none
  writeBlobErr : Option String := none
  writeLayoutErr : Option String := none
  writeDescErr : Option String := none
deriving DecidableEq, Repr

/-- Embedding of ociImageDestination.PutManifest from src/oci/oci_dest.go
lines 79-111 (src/unnamed/part_002 lines 127-164 is the same flow with
the directory creation moved after the digest computation).  On success
it returns the ordered list of writes: the manifest blob at its
digest-addressed path, the layout marker, then the descriptor record at
the tag-addressed path. -/
def putManifest (guess : List Nat → String) (unm : List Nat → Option OciManifestRec)
    (mar : OciManifestRec → Option (List Nat)) (env : PutManifestEnv) (ref : OciRef)
    (m : List Nat) : Except String (List FileWrite) :=
  match env.ensureRefsDirErr with
  | some e => .error e
  | none =>
    match createManifest guess unm mar m with
    | .error e => .error e
    | .ok (ociMan, mt) =>
      match computeDigest ociMan with
      | none => .error "error computing manifest digest"
      | some dg =>
        let desc : OciDescriptor := { digest := dg, mediaType := mt, size := Int.ofNat ociMan.length }
        match env.writeBlobErr with
        | some e => .error e
        | none =>
          match env.writeLayoutErr with
          | some e => .error e
          | none =>
            match env.writeDescErr with
            | some e => .error e
            | none =>
              .ok [FileWrite.blob (blobPath ref.dir dg) ociMan,
                   FileWrite.layout (ociLayoutPath ref.dir) ociLayoutContent,
                   FileWrite.descRecord (descriptorPath ref.dir ref.tag) desc]

/-- Embedding of ociImageDestination.PutSignatures (src/unnamed/part_002
lines 184-189 and src/oci/oci_dest.go lines 148-153).  The destination
performs no writes on either branch. -/
def putSignatures (signatures : List (List Nat)) : Except String Unit :=
  if signatures.length != 0 then
    .error "Pushing signatures for OCI images is not supported"
  else .ok ()

end OciDest

/-! ## Signature codec and trust verifier (section 4.4)

The implementations of SignDockerManifest and
VerifyDockerManifestSignature are not present under src (only their
tests, in src/unnamed/part_000, are), so this component is modelled
from the spec. -/

namespace DockerSig

/-- Modelled from the spec: the SignedEnvelope of section 3, the logical
payload bound by the trust mechanism. -/
structure SignedEnvelope where
  dockerReference : String
  dockerManifestDigest : String
deriving DecidableEq, Repr

/-- Modelled from the spec: the verified-signature value returned by a
successful verification. -/
structure VerifiedSig where
  dockerReference : String
  dockerManifestDigest : String
deriving DecidableEq, Repr

/-- Error taxonomy of section 7, restricted to the signing component. -/
inductive SigErr
  | manifestDigestError
  | invalidReference
  | signingError
  | signatureInvalid
  | keyMismatch
  | referenceMismatch
  | digestMismatch
deriving DecidableEq, Repr

/-- Character codes of a string, for the envelope serialization. -/
def strToCodes (s : String) : List Nat := s.data.map Char.toNat

/-- Inverse direction of strToCodes on valid code points. -/
def codesToStr (l : List Nat) : String := ⟨l.map (fun n => Char.ofNat n)⟩

/-- Modelled from the spec: serialization of the SignedEnvelope, an
injective framing of the two strings (length-prefixed reference followed
by the digest). -/
def encodeEnv (e : SignedEnvelope) : List Nat :=
  e.dockerReference.length :: (strToCodes e.dockerReference ++ strToCodes e.dockerManifestDigest)

/-- Modelled from the spec: parsing of a signed envelope payload; fails on
payloads that are not well-formed. -/
def decodeEnv (l : List Nat) : Option SignedEnvelope :=
  match l with
  | [] => none
  | n :: rest =>
    if n ≤ rest.length then
      some ⟨codesToStr (rest.take n), codesToStr (rest.drop n)⟩
    else none

/-- Modelled from the spec: the abstract signing mechanism capability of
section 6, identified by the set of key identities it knows. -/
structure SigningMechanism where
  keys : List String
deriving DecidableEq, Repr

/-- Modelled from the spec: a detached signature as the mechanism produces
and authenticates it: the signed payload, the signer key identity, and
whether the blob is still intact (a corrupt signature fails
authentication). -/
structure MechSignature where
  payload : List Nat
  signer : String
  intact : Bool
deriving DecidableEq, Repr

/-- Modelled from the spec: mechanism.Sign, detached signing under a key
identity; fails for a key the mechanism does not know. -/
def mechSign (mech : SigningMechanism) (payload : List Nat) (keyIdentity : String) :
    Except SigErr MechSignature :=
  if mech.keys.contains keyIdentity then .ok ⟨payload, keyIdentity, true⟩
  else .error .signingError

/-- Modelled from the spec: mechanism.Verify, authenticating a detached
signature and returning the embedded payload and the signer key
identity. -/
def mechVerify (mech : SigningMechanism) (sig : MechSignature) :
    Except SigErr (List Nat × String) :=
  if sig.intact && mech.keys.contains sig.signer then .ok (sig.payload, sig.signer)
  else .error .signatureInvalid

/-- Modelled from the spec: a reference is fully qualified when it is
non-empty and carries a tag or a digest; a bare name is rejected at
signing time. -/
def isFullyQualified (s : String) : Bool :=
  !(s == "") && (s.data.contains ':' || s.data.contains '@')

/-- Modelled from the spec: SignDockerManifest (section 4.4 Sign): compute
the manifest digest, build the envelope, reject a reference that is not
fully qualified, and pass the serialized envelope to the mechanism. -/
def signDockerManifest (mech : SigningMechanism) (m : List Nat) (dockerReference : String)
    (keyIdentity : String) : Except SigErr MechSignature :=
  match computeDigest m with
  | none => .error .manifestDigestError
  | some d =>
    if isFullyQualified dockerReference then
      mechSign mech (encodeEnv ⟨dockerReference, d⟩) keyIdentity
    else .error .invalidReference

/-- Modelled from the spec: VerifyDockerManifestSignature (section 4.4
Verify, checks 1-7), returned in the Go style as a pair of the
verified-signature value and the error value, so that the nil-on-error
contract is a statement about the code rather than about the type. -/
def verifyDockerManifestSignature (mech : SigningMechanism) (sig : MechSignature)
    (m : List Nat) (expectedRef expectedKey : String) :
    Option VerifiedSig × Option SigErr :=
  match computeDigest m with
  | none => (none, some SigErr.manifestDigestError)
  | some d =>
    match mechVerify mech sig with
    | .error _ => (none, some SigErr.signatureInvalid)
    | .ok (payload, signerKey) =>
      match decodeEnv payload with
      | none => (none, some SigErr.signatureInvalid)
      | some env =>
        if signerKey != expectedKey then (none, some SigErr.keyMismatch)
        else if env.dockerReference != expectedRef then (none, some SigErr.referenceMismatch)
        else if env.dockerManifestDigest != d then (none, some SigErr.digestMismatch)
        else (some ⟨env.dockerReference, env.dockerManifestDigest⟩, none)

end DockerSig

/-! ## Storage reference model (src/storage/storage_reference.go) -/

namespace StorageModel

/-- Model of a parsed docker reference (the reference.Named interface):
the normalized repository path returned by Name, with the optional tag
and digest components. -/
structure RefName where
  repo : String
  tag : Option String := none
  digest : Option String := none
deriving DecidableEq, Repr

/-- One entry of a stored image name list: the raw string the store
recorded, together with the result of parsing it as a normalized
reference (none when ParseNormalizedNamed fails on it). -/
structure StoreName where
  raw : String
  parsedName : Option RefName
deriving DecidableEq, Repr

/-- Model of a stored image of the containers storage library: its
store-local id, its recorded names, and the manifest digests recorded
for it. -/
structure StoreImage where
  id : String
  names : List StoreName
  digests : List String
deriving DecidableEq, Repr

/-- Model of a store: the ordered image list backing both indexes. -/
structure Store where
  images : List StoreImage
deriving Repr

/-- Modelled from the spec: the store name index (the Image method of the
containers storage library, an external collaborator): it finds an image
by its store-local id or by one of its recorded names. -/
def lookupImage (st : Store) (key : String) : Option StoreImage :=
  st.images.find? (fun i => i.id == key || i.names.any (fun n => n.raw == key))

/-- Modelled from the spec: the store digest index (the ImagesByDigest
method of the containers storage library): all stored images recorded
under a digest, in store order. -/
def imagesByDigest (st : Store) (d : String) : List StoreImage :=
  st.images.filter (fun i => i.digests.contains d)

/-- Embedding of imageMatchesRepo from src/storage/storage_reference.go
lines 42-53: true iff the image name list contains an element that
parses and has the same repository as the reference. -/
def imageMatchesRepo (image : StoreImage) (ref : RefName) : Bool :=
  image.names.any (fun n =>
    match n.parsedName with
    | some named => named.repo == ref.repo
    | none => false)

/-- Embedding of the storageReference fields resolveImage and the policy
namespace derivation use: the optional parsed complete reference, the
expanded reference string, and the store-local id. -/
structure StorageRef where
  completeReference : Option RefName
  reference : String
  id : String
deriving DecidableEq, Repr

/-- The value the id field of the reference holds after the two resolution
steps at the top of resolveImage (src/storage/storage_reference.go lines
58-80): the already-present id, else the name index hit, else the first
digest index entry whose name set matches the repository, else empty. -/
def resolvedId (st : Store) (s : StorageRef) : String :=
  let id1 :=
    if s.id == "" then
      match lookupImage st s.reference with
      | some image => image.id
      | none => ""
    else s.id
  if id1 == "" then
    match s.completeReference with
    | some cr =>
      match cr.digest with
      | some d =>
        match (imagesByDigest st d).find? (fun i => imageMatchesRepo i cr) with
        | some image => image.id
        | none => ""
      | none => ""
    | none => ""
  else id1

/-- Errors of resolveImage. -/
inductive ResolveErr
  | noSuchImage
  | readError (id : String)
deriving DecidableEq, Repr

/-- Embedding of storageReference.resolveImage from
src/storage/storage_reference.go lines 57-96: resolve the id, fail with
NoSuchImage when none was found, reread the image by id, and when the
reference carried an explicit name require the resolved image to still
match its repository. -/
def resolveImage (st : Store) (s : StorageRef) : Except ResolveErr StoreImage :=
  let rid := resolvedId st s
  if rid == "" then .error .noSuchImage
  else
    match lookupImage st rid with
    | none => .error (.readError rid)
    | some img =>
      match s.completeReference with
      | some cr => if imageMatchesRepo img cr then .ok img else .error .noSuchImage
      | none => .ok img

/-- The store attributes PolicyConfigurationNamespaces reads. -/
structure StoreInfo where
  graphDriverName : String
  graphRoot : String
deriving DecidableEq, Repr

/-- Namespace emission loop of PolicyConfigurationNamespaces
(src/storage/storage_reference.go lines 159-163): one namespace per path
prefix of the component list, from the full path down to the first
component, dropping the last component each round. -/
def prefixJoins (storeSpec : String) : List String → List String
  | [] => []
  | cs@(_ :: _) => (storeSpec ++ goJoin "/" cs) :: prefixJoins storeSpec cs.dropLast
termination_by cs => cs.length
decreasing_by simp_all [List.length_dropLast]

/-- Embedding of storageReference.PolicyConfigurationNamespaces from
src/storage/storage_reference.go lines 150-168. -/
def policyConfigurationNamespaces (t : StoreInfo) (s : StorageRef) : List String :=
  let storeSpec := "[" ++ t.graphDriverName ++ "@" ++ t.graphRoot ++ "]"
  let driverlessStoreSpec := "[" ++ t.graphRoot ++ "]"
  let fromRef :=
    match s.completeReference with
    | some cr =>
      (if s.id != "" then [storeSpec ++ s.reference] else []) ++
        prefixJoins storeSpec (goSplit '/' cr.repo)
    | none => []
  fromRef ++ [storeSpec] ++ [driverlessStoreSpec]

end StorageModel

/-! ## Storage transport string round trip

StringWithinTransport is embedded from src/storage/storage_reference.go
at the character level; the transport parser is not present under src
(only its callers are), so it is modelled from the spec.  Strings are
List Char here so that the splitting lemmas stay elementary. -/

namespace StorageRT

/-- The store attributes StringWithinTransport reads, at character
level. -/
structure StoreC where
  graphDriverName : List Char
  graphRoot : List Char
  runRoot : List Char
  graphOptions : List (List Char)
deriving DecidableEq, Repr

/-- Model of strings.Join at character level. -/
def goJoinC (sep : List Char) : List (List Char) → List Char
  | [] => []
  | [s] => s
  | s :: rest => s ++ sep ++ goJoinC sep rest

/-- The optionsList fragment of StringWithinTransport (lines 120-124):
a colon-prefixed comma join of the graph options, empty when there are
none. -/
def optionsListC (st : StoreC) : List Char :=
  if st.graphOptions.length > 0 then ':' :: goJoinC [','] st.graphOptions else []

/-- The text of the store locator between the brackets. -/
def specInteriorC (st : StoreC) : List Char :=
  st.graphDriverName ++ '@' :: st.graphRoot ++ '+' :: st.runRoot ++ optionsListC st

/-- The bracketed store locator of StringWithinTransport (line 125). -/
def storeSpecC (st : StoreC) : List Char :=
  '[' :: specInteriorC st ++ [']']

/-- The name and id pair of a storage reference, at character level. -/
structure StorageRefC where
  reference : List Char
  id : List Char
deriving DecidableEq, Repr

/-- Embedding of storageReference.StringWithinTransport from
src/storage/storage_reference.go lines 119-133. -/
def stringWithinTransportC (st : StoreC) (r : StorageRefC) : List Char :=
  if r.reference = [] then storeSpecC st ++ '@' :: r.id
  else if r.id = [] then storeSpecC st ++ r.reference
  else storeSpecC st ++ r.reference ++ '@' :: r.id

/-- Split a character list at the first occurrence of a character; none
when it does not occur. -/
def splitAtFirstChar (c : Char) : List Char → Option (List Char × List Char)
  | [] => none
  | x :: xs =>
    if x == c then some ([], xs)
    else (splitAtFirstChar c xs).map (fun p => (x :: p.1, p.2))

/-- Split a character list at the last occurrence of a character. -/
def splitAtLastChar (c : Char) (cs : List Char) : Option (List Char × List Char) :=
  match splitAtFirstChar c cs.reverse with
  | none => none
  | some (suf, pre) => some (pre.reverse, suf.reverse)

/-- Lowercase hexadecimal digit test. -/
def isLowerHexChar (c : Char) : Bool :=
  (('0' ≤ c) && (c ≤ '9')) || (('a' ≤ c) && (c ≤ 'f'))

/-- A well-formed store-local image id: 64 lowercase hexadecimal
characters. -/
def isImageID (cs : List Char) : Bool :=
  cs.length == 64 && cs.all isLowerHexChar

/-- Modelled from the spec: the storage transport parser (section 4.2
Parse), whose implementation is not present under src.  It strips the
bracketed store locator, then splits the remainder into the name part
and an optional trailing store-local id: a remainder that starts with
the id separator is a bare id, otherwise a trailing separator-suffix is
an id only when it is a well-formed 64-character hexadecimal id (a
digest suffix never is, since it keeps its algorithm colon). -/
def parseStorageRefC (input : List Char) : Option (List Char × StorageRefC) :=
  if input.head? == some '[' then
    match splitAtFirstChar ']' input.tail with
    | none => none
    | some (loc, tail) =>
      if tail.head? == some '@' then some (loc, ⟨[], tail.tail⟩)
      else
        match splitAtLastChar '@' tail with
        | some (front, back) =>
          if isImageID back then some (loc, ⟨front, back⟩) else some (loc, ⟨tail, []⟩)
        | none => some (loc, ⟨tail, []⟩)
  else none

/-- Validity of a storage reference for the round trip: the locator text
contains no closing bracket, a non-empty name must not begin with the id
separator, the id is empty or a well-formed image id, and when the id is
empty the name must not itself end in a separator-plus-image-id suffix
(repository names, tags and algorithm-qualified digest suffixes never
do). -/
def validStorageRefC (st : StoreC) (r : StorageRefC) : Prop :=
  (']' ∉ specInteriorC st)
  ∧ (r.reference ≠ [] → r.reference.head? ≠ some '@')
  ∧ (r.id = [] ∨ isImageID r.id = true)
  ∧ (r.id = [] → ∀ front back, splitAtLastChar '@' r.reference = some (front, back) →
      isImageID back = false)

end StorageRT

/-! ## Theorems -/

open OciDest DockerSig StorageModel StorageRT

/-- C1: the claim requires PutBlob to return an error whenever the final
atomic rename of the staged file into its digest-addressed path fails.
The source does the opposite: in the run below every step up to and
including chmod succeeds and the rename fails, yet the call returns no
error (and the deferred cleanup has deleted the staging file, so no blob
exists at the digest path either).  The rename failure is reported as
success, contradicting the claim and the documented contract. -/
theorem putBlob_rename_error_reported_as_success :
    putBlob
      { blobPathRes := .ok "/oci/blobs/sha256-aa", ensureParentRes := none,
        tempFileRes := .ok "/oci/blobs/sha256-aa123456", copyBytes := 2,
        copyErr := none, syncErr := none, chmodErr := none,
        renameErr := some "rename failed" } 2 =
      { result := none, tempCreated := true, tempRemoved := true, renamed := false } := rfl

/-- C2: whenever the source stream errors mid-copy, or an expected size
is given and the copied byte count differs from it, PutBlob returns an
error, the deferred cleanup removes the temporary staging file, and the
rename into the final digest-addressed path never happens, so no file is
created there. -/
theorem putBlob_failure_cleanup (env : PutBlobEnv) (expectedSize : Int) (bp tf : String)
    (hbp : env.blobPathRes = .ok bp)
    (hep : env.ensureParentRes = none)
    (htf : env.tempFileRes = .ok tf)
    (hfail : env.copyErr ≠ none ∨
      (env.copyErr = none ∧ expectedSize ≠ -1 ∧ env.copyBytes ≠ expectedSize)) :
    (putBlob env expectedSize).result ≠ none
    ∧ (putBlob env expectedSize).tempRemoved = true
    ∧ (putBlob env expectedSize).renamed = false := by
  unfold putBlob
  rw [hbp, hep, htf]
  rcases hfail with h | ⟨hc, hs, hb⟩
  · cases hcopy : env.copyErr with
    | none => exact absurd hcopy h
    | some e => simp
  · rw [hc]
    have hcond : (expectedSize != -1 && env.copyBytes != expectedSize) = true := by
      simp [bne_iff_ne, hs, hb]
    simp [hcond]

/-- C2 witness: a concrete run with a mid-copy read error. -/
theorem putBlob_failure_cleanup_witness :
    (putBlob
      { blobPathRes := .ok "/oci/blobs/sha256-bb", ensureParentRes := none,
        tempFileRes := .ok "/oci/blobs/sha256-bb42", copyBytes := 3,
        copyErr := some "read error", syncErr := none, chmodErr := none,
        renameErr := none } (-1)).result ≠ none
    ∧ (putBlob
      { blobPathRes := .ok "/oci/blobs/sha256-bb", ensureParentRes := none,
        tempFileRes := .ok "/oci/blobs/sha256-bb42", copyBytes := 3,
        copyErr := some "read error", syncErr := none, chmodErr := none,
        renameErr := none } (-1)).tempRemoved = true
    ∧ (putBlob
      { blobPathRes := .ok "/oci/blobs/sha256-bb", ensureParentRes := none,
        tempFileRes := .ok "/oci/blobs/sha256-bb42", copyBytes := 3,
        copyErr := some "read error", syncErr := none, chmodErr := none,
        renameErr := none } (-1)).renamed = false :=
  putBlob_failure_cleanup _ (-1) "/oci/blobs/sha256-bb" "/oci/blobs/sha256-bb42"
    rfl rfl rfl (Or.inl (by decide))

/-- C9: PutSignatures on the OCI image destination succeeds exactly on
the empty signature set (and, by the shape of the embedding, performs no
writes on either branch) and returns an error for every non-empty
signature set. -/
theorem putSignatures_rejects_nonempty (signatures : List (List Nat)) :
    (signatures = [] → putSignatures signatures = .ok ())
    ∧ (signatures ≠ [] →
        putSignatures signatures = .error "Pushing signatures for OCI images is not supported") := by
  constructor
  · intro h; subst h; rfl
  · intro h
    unfold putSignatures
    have : (signatures.length != 0) = true := by
      simp [bne_iff_ne, h]
    simp [this]

/-- C9 witness: a singleton signature set is rejected. -/
theorem putSignatures_rejects_nonempty_witness :
    putSignatures [[1, 2]] = .error "Pushing signatures for OCI images is not supported" :=
  (putSignatures_rejects_nonempty [[1, 2]]).2 (by decide)

/-- Helper: the writes PutManifest performs when manifest creation and
digesting succeed and no filesystem step fails. -/
theorem putManifest_ok_writes (guess : List Nat → String) (unm : List Nat → Option OciManifestRec)
    (mar : OciManifestRec → Option (List Nat)) (ref : OciRef) (m stored : List Nat) (mt dg : String)
    (hc : createManifest guess unm mar m = .ok (stored, mt))
    (hd : computeDigest stored = some dg) :
    putManifest guess unm mar {} ref m =
      .ok [FileWrite.blob (blobPath ref.dir dg) stored,
           FileWrite.layout (ociLayoutPath ref.dir) ociLayoutContent,
           FileWrite.descRecord (descriptorPath ref.dir ref.tag)
             { digest := dg, mediaType := mt, size := Int.ofNat stored.length }] := by
  simp [putManifest, hc, hd]

/-- C8: PutManifest computes the digest over the stored (possibly
translated) manifest bytes returned by createManifest, not over the
original input: the manifest blob is written at the digest-addressed
path derived from the digest of the stored bytes, and the descriptor
record persisted at the tag-addressed path carries that digest and the
exact byte length of the stored bytes. -/
theorem putManifest_digest_over_stored (guess : List Nat → String)
    (unm : List Nat → Option OciManifestRec) (mar : OciManifestRec → Option (List Nat))
    (ref : OciRef) (m stored : List Nat) (mt dg : String)
    (hc : createManifest guess unm mar m = .ok (stored, mt))
    (hd : computeDigest stored = some dg) :
    putManifest guess unm mar {} ref m =
      .ok [FileWrite.blob (blobPath ref.dir dg) stored,
           FileWrite.layout (ociLayoutPath ref.dir) ociLayoutContent,
           FileWrite.descRecord (descriptorPath ref.dir ref.tag)
             { digest := dg, mediaType := mt, size := Int.ofNat stored.length }] :=
  putManifest_ok_writes guess unm mar ref m stored mt dg hc hd

/-- C8 witness: a schema2 manifest is translated to different stored
bytes, and the digest and size recorded are those of the stored bytes,
not of the original input. -/
theorem putManifest_digest_over_stored_witness :
    putManifest (fun _ => dockerV2Schema2MIMEType) (fun _ => some {})
        (fun _ => some [9, 9]) {} { dir := "/d", tag := "t" } [1] =
      .ok [FileWrite.blob (blobPath "/d" "sha256:jj") [9, 9],
           FileWrite.layout (ociLayoutPath "/d") ociLayoutContent,
           FileWrite.descRecord (descriptorPath "/d" "t")
             { digest := "sha256:jj", mediaType := ociV1ImageManifestMIMEType,
               size := Int.ofNat 2 }] :=
  putManifest_digest_over_stored (fun _ => dockerV2Schema2MIMEType) (fun _ => some {})
    (fun _ => some [9, 9]) { dir := "/d", tag := "t" } [1] [9, 9]
    ociV1ImageManifestMIMEType "sha256:jj" rfl (by decide)

/-- C10: for an input manifest already detected as the OCI v1 image
manifest type, createManifest returns the input bytes unchanged paired
with the empty media-type string (the field of the never-populated zero
value), and the descriptor record PutManifest then persists carries the
empty string as its media type rather than the OCI media type. -/
theorem createManifest_oci_keeps_bytes_empty_mediatype (guess : List Nat → String)
    (unm : List Nat → Option OciManifestRec) (mar : OciManifestRec → Option (List Nat))
    (ref : OciRef) (m : List Nat) (dg : String)
    (hguess : guess m = ociV1ImageManifestMIMEType)
    (hd : computeDigest m = some dg) :
    createManifest guess unm mar m = .ok (m, "")
    ∧ putManifest guess unm mar {} ref m =
        .ok [FileWrite.blob (blobPath ref.dir dg) m,
             FileWrite.layout (ociLayoutPath ref.dir) ociLayoutContent,
             FileWrite.descRecord (descriptorPath ref.dir ref.tag)
               { digest := dg, mediaType := "", size := Int.ofNat m.length }] := by
  have hc : createManifest guess unm mar m = .ok (m, "") := by
    unfold createManifest
    rw [hguess]
    rfl
  exact ⟨hc, putManifest_ok_writes guess unm mar ref m m "" dg hc hd⟩

/-- C10 witness: a concrete OCI manifest input passes through unchanged
with an empty media type in the persisted descriptor. -/
theorem createManifest_oci_keeps_bytes_empty_mediatype_witness :
    createManifest (fun _ => ociV1ImageManifestMIMEType) (fun _ => none) (fun _ => none) [0, 1] =
      .ok ([0, 1], "")
    ∧ putManifest (fun _ => ociV1ImageManifestMIMEType) (fun _ => none) (fun _ => none) {}
        { dir := "/d", tag := "t" } [0, 1] =
      .ok [FileWrite.blob (blobPath "/d" "sha256:ab") [0, 1],
           FileWrite.layout (ociLayoutPath "/d") ociLayoutContent,
           FileWrite.descRecord (descriptorPath "/d" "t")
             { digest := "sha256:ab", mediaType := "", size := Int.ofNat 2 }] :=
  createManifest_oci_keeps_bytes_empty_mediatype (fun _ => ociV1ImageManifestMIMEType)
    (fun _ => none) (fun _ => none) { dir := "/d", tag := "t" } [0, 1] "sha256:ab"
    rfl (by decide)

/-- Helper: decoding the character codes of a string restores it. -/
theorem codesToStr_strToCodes (s : String) : codesToStr (strToCodes s) = s := by
  unfold codesToStr strToCodes
  rw [List.map_map]
  have hfun : ((fun n => Char.ofNat n) ∘ Char.toNat) = (id : Char → Char) :=
    funext (fun c => Char.ofNat_toNat c)
  rw [hfun, List.map_id]

/-- Helper: the envelope serialization round trips through the parser. -/
theorem decodeEnv_encodeEnv (e : SignedEnvelope) : decodeEnv (encodeEnv e) = some e := by
  unfold decodeEnv encodeEnv
  dsimp only
  have hlen : e.dockerReference.length = (strToCodes e.dockerReference).length := by
    unfold strToCodes
    rw [List.length_map]
    rfl
  have hle : e.dockerReference.length ≤
      (strToCodes e.dockerReference ++ strToCodes e.dockerManifestDigest).length := by
    rw [hlen]
    simp
  rw [if_pos hle, hlen, List.take_left, List.drop_left,
    codesToStr_strToCodes, codesToStr_strToCodes]

/-- Helper: every verification either succeeds with a value and no
error, or fails with no value and an error. -/
theorem verify_cases (mech : SigningMechanism) (sig : MechSignature) (m : List Nat)
    (expectedRef expectedKey : String) :
    (∃ v, verifyDockerManifestSignature mech sig m expectedRef expectedKey = (some v, none))
    ∨ (∃ e, verifyDockerManifestSignature mech sig m expectedRef expectedKey = (none, some e)) := by
  unfold verifyDockerManifestSignature
  cases computeDigest m with
  | none => exact Or.inr ⟨_, rfl⟩
  | some d =>
    cases mechVerify mech sig with
    | error err => exact Or.inr ⟨_, rfl⟩
    | ok p =>
      obtain ⟨payload, signerKey⟩ := p
      dsimp only
      cases decodeEnv payload with
      | none => exact Or.inr ⟨_, rfl⟩
      | some env =>
        dsimp only
        by_cases h1 : (signerKey != expectedKey) = true
        · rw [if_pos h1]
          exact Or.inr ⟨_, rfl⟩
        · rw [if_neg h1]
          by_cases h2 : (env.dockerReference != expectedRef) = true
          · rw [if_pos h2]
            exact Or.inr ⟨_, rfl⟩
          · rw [if_neg h2]
            by_cases h3 : (env.dockerManifestDigest != d) = true
            · rw [if_pos h3]
              exact Or.inr ⟨_, rfl⟩
            · rw [if_neg h3]
              exact Or.inl ⟨_, rfl⟩

/-- C3: signing a manifest that the digest codec accepts, under a fully
qualified reference and a key the mechanism knows, produces a signature
that verifies against the same manifest, reference and key, and the
verified-signature value carries that reference and the digest of the
manifest. -/
theorem sign_verify_roundtrip (mech : SigningMechanism) (m : List Nat) (ref key d : String)
    (sig : MechSignature)
    (hd : computeDigest m = some d)
    (href : isFullyQualified ref = true)
    (hkey : mech.keys.contains key = true)
    (hsig : signDockerManifest mech m ref key = .ok sig) :
    verifyDockerManifestSignature mech sig m ref key =
      (some { dockerReference := ref, dockerManifestDigest := d }, none) := by
  unfold signDockerManifest at hsig
  rw [hd] at hsig
  dsimp only at hsig
  rw [if_pos href] at hsig
  unfold mechSign at hsig
  rw [if_pos hkey] at hsig
  have hsig2 : sig = ⟨encodeEnv ⟨ref, d⟩, key, true⟩ := by
    cases hsig
    rfl
  subst hsig2
  have hmem : key ∈ mech.keys := by simpa using hkey
  simp [verifyDockerManifestSignature, hd, mechVerify, hmem, decodeEnv_encodeEnv]

/-- C3 witness: a concrete manifest, reference and key round trip. -/
theorem sign_verify_roundtrip_witness :
    verifyDockerManifestSignature { keys := ["K"] }
        ⟨encodeEnv ⟨"repo:tag", "sha256:bcd"⟩, "K", true⟩ [1, 2, 3] "repo:tag" "K" =
      (some { dockerReference := "repo:tag", dockerManifestDigest := "sha256:bcd" }, none) :=
  sign_verify_roundtrip { keys := ["K"] } [1, 2, 3] "repo:tag" "K" "sha256:bcd"
    ⟨encodeEnv ⟨"repo:tag", "sha256:bcd"⟩, "K", true⟩ (by decide) (by decide) (by decide) rfl

/-- C4: whenever verification reports an error the verified-signature
component of the result is the empty value, and a populated
verified-signature value is returned only when no error is reported. -/
theorem verify_nil_on_error (mech : SigningMechanism) (sig : MechSignature) (m : List Nat)
    (expectedRef expectedKey : String) :
    ((verifyDockerManifestSignature mech sig m expectedRef expectedKey).2 ≠ none →
      (verifyDockerManifestSignature mech sig m expectedRef expectedKey).1 = none)
    ∧ ((verifyDockerManifestSignature mech sig m expectedRef expectedKey).1 ≠ none →
      (verifyDockerManifestSignature mech sig m expectedRef expectedKey).2 = none) := by
  obtain ⟨v, hv⟩ | ⟨e, he⟩ := verify_cases mech sig m expectedRef expectedKey
  · rw [hv]
    exact ⟨fun h => absurd rfl h, fun _ => rfl⟩
  · rw [he]
    exact ⟨fun _ => rfl, fun h => absurd rfl h⟩

/-- C4 witness: a corrupt signature fails authentication and the
verified-signature component is empty. -/
theorem verify_nil_on_error_witness :
    (verifyDockerManifestSignature { keys := ["K"] } ⟨[9], "K", false⟩ [1] "r:t" "K").1 = none :=
  (verify_nil_on_error { keys := ["K"] } ⟨[9], "K", false⟩ [1] "r:t" "K").1 (by decide)

/-- C5: resolveImage locates a stored image in this order: an id already
carried by the reference is used directly; otherwise a hit in the store
name index for the expanded reference name is used; otherwise, when the
reference carries a digest, the first image of the digest index whose
name set matches the reference repository is used (images under other
repositories are skipped by that search); otherwise no id is found and
the call fails with NoSuchImage.  Finally, whenever the reference had an
explicit name, a successfully resolved image always matches its
repository, and a resolved image that does not match is rejected with
NoSuchImage even though an id was found. -/
theorem resolveImage_resolution_order (st : Store) (s : StorageRef) :
    (s.id ≠ "" → resolvedId st s = s.id)
    ∧ (∀ image, s.id = "" → lookupImage st s.reference = some image → image.id ≠ "" →
        resolvedId st s = image.id)
    ∧ (∀ cr d, s.id = "" → lookupImage st s.reference = none →
        s.completeReference = some cr → cr.digest = some d →
        ((∀ image, (imagesByDigest st d).find? (fun i => imageMatchesRepo i cr) = some image →
            resolvedId st s = image.id)
          ∧ ((imagesByDigest st d).find? (fun i => imageMatchesRepo i cr) = none →
            resolvedId st s = "")))
    ∧ (resolvedId st s = "" → resolveImage st s = .error .noSuchImage)
    ∧ (∀ image cr, resolveImage st s = .ok image → s.completeReference = some cr →
        imageMatchesRepo image cr = true)
    ∧ (∀ image cr, resolvedId st s ≠ "" → lookupImage st (resolvedId st s) = some image →
        s.completeReference = some cr → imageMatchesRepo image cr = false →
        resolveImage st s = .error .noSuchImage) := by
  refine ⟨?_, ?_, ?_, ?_, ?_, ?_⟩
  · intro h
    unfold resolvedId
    simp [h]
  · intro image h hl hne
    unfold resolvedId
    simp [h, hl, hne]
  · intro cr d h hl hcr hd
    constructor
    · intro image hf
      unfold resolvedId
      simp [h, hl, hcr, hd, hf]
    · intro hf
      unfold resolvedId
      simp [h, hl, hcr, hd, hf]
  · intro h
    unfold resolveImage
    simp [h]
  · intro image cr hok hcr
    unfold resolveImage at hok
    by_cases hrid : resolvedId st s = ""
    · simp [hrid] at hok
    · simp only [hrid] at hok
      rw [if_neg (by simpa using hrid)] at hok
      cases hlk : lookupImage st (resolvedId st s) with
      | none => rw [hlk] at hok; cases hok
      | some img2 =>
        rw [hlk, hcr] at hok
        dsimp only at hok
        by_cases hm : imageMatchesRepo img2 cr
        · rw [if_pos hm] at hok
          cases hok
          exact hm
        · rw [if_neg hm] at hok
          cases hok
  · intro image cr hrid hlk hcr hm
    unfold resolveImage
    rw [if_neg (by simpa using hrid), hlk, hcr]
    dsimp only
    rw [hm]
    simp

/-- C5 witness: a canonical reference with no id and no name index hit
resolves through the digest index to the first image matching its
repository, skipping an image that shares the digest under a different
repository. -/
theorem resolveImage_resolution_order_witness :
    resolvedId
      { images :=
          [{ id := "aaa",
             names := [{ raw := "docker.io/other/x:latest",
                         parsedName := some { repo := "docker.io/other/x" } }],
             digests := ["sha256:d"] },
           { id := "bbb",
             names := [{ raw := "docker.io/a/b:v1",
                         parsedName := some { repo := "docker.io/a/b", tag := some "v1" } }],
             digests := ["sha256:d"] }] }
      { completeReference := some { repo := "docker.io/a/b", digest := some "sha256:d" },
        reference := "docker.io/a/b@sha256:d", id := "" } = "bbb" :=
  ((resolveImage_resolution_order
      { images :=
          [{ id := "aaa",
             names := [{ raw := "docker.io/other/x:latest",
                         parsedName := some { repo := "docker.io/other/x" } }],
             digests := ["sha256:d"] },
           { id := "bbb",
             names := [{ raw := "docker.io/a/b:v1",
                         parsedName := some { repo := "docker.io/a/b", tag := some "v1" } }],
             digests := ["sha256:d"] }] }
      { completeReference := some { repo := "docker.io/a/b", digest := some "sha256:d" },
        reference := "docker.io/a/b@sha256:d", id := "" }).2.2.1
    { repo := "docker.io/a/b", digest := some "sha256:d" } "sha256:d" rfl (by decide) rfl
    rfl).1
    { id := "bbb",
      names := [{ raw := "docker.io/a/b:v1",
                  parsedName := some { repo := "docker.io/a/b", tag := some "v1" } }],
      digests := ["sha256:d"] } (by decide)

/-- C6: for a reference with a complete name whose path splits into the
three components a, b and c, and with a resolved id,
PolicyConfigurationNamespaces returns exactly, in order: the store spec
plus the reference without the id, one namespace per path prefix of the
name from the full path down to the first component, the store spec
alone, and the driverless store spec last. -/
theorem policy_namespaces_order (t : StoreInfo) (cr : RefName) (ref id a b c : String)
    (hsplit : goSplit '/' cr.repo = [a, b, c])
    (hid : id ≠ "") :
    policyConfigurationNamespaces t { completeReference := some cr, reference := ref, id := id } =
      ["[" ++ t.graphDriverName ++ "@" ++ t.graphRoot ++ "]" ++ ref,
       "[" ++ t.graphDriverName ++ "@" ++ t.graphRoot ++ "]" ++ (a ++ "/" ++ b ++ "/" ++ c),
       "[" ++ t.graphDriverName ++ "@" ++ t.graphRoot ++ "]" ++ (a ++ "/" ++ b),
       "[" ++ t.graphDriverName ++ "@" ++ t.graphRoot ++ "]" ++ a,
       "[" ++ t.graphDriverName ++ "@" ++ t.graphRoot ++ "]",
       "[" ++ t.graphRoot ++ "]"] := by
  unfold policyConfigurationNamespaces
  dsimp only
  rw [hsplit]
  have hb : (id != "") = true := by simp [bne_iff_ne, hid]
  simp [hb, prefixJoins.eq_def, goJoin, String.append_assoc]

/-- C6 witness: a concrete three-component reference with a resolved
id. -/
theorem policy_namespaces_order_witness :
    policyConfigurationNamespaces { graphDriverName := "overlay", graphRoot := "/var/lib/st" }
        { completeReference := some { repo := "a/b/c" }, reference := "a/b/c:t", id := "0123" } =
      ["[" ++ "overlay" ++ "@" ++ "/var/lib/st" ++ "]" ++ "a/b/c:t",
       "[" ++ "overlay" ++ "@" ++ "/var/lib/st" ++ "]" ++ ("a" ++ "/" ++ "b" ++ "/" ++ "c"),
       "[" ++ "overlay" ++ "@" ++ "/var/lib/st" ++ "]" ++ ("a" ++ "/" ++ "b"),
       "[" ++ "overlay" ++ "@" ++ "/var/lib/st" ++ "]" ++ "a",
       "[" ++ "overlay" ++ "@" ++ "/var/lib/st" ++ "]",
       "[" ++ "/var/lib/st" ++ "]"] :=
  policy_namespaces_order { graphDriverName := "overlay", graphRoot := "/var/lib/st" }
    { repo := "a/b/c" } "a/b/c:t" "0123" "a" "b" "c" (by decide) (by decide)

/-- Helper: splitting at the first occurrence of a character recovers the
parts around it when the prefix does not contain it. -/
theorem splitAtFirstChar_append (c : Char) (xs ys : List Char) (h : c ∉ xs) :
    splitAtFirstChar c (xs ++ c :: ys) = some (xs, ys) := by
  induction xs with
  | nil => simp [splitAtFirstChar]
  | cons x xs ih =>
    rw [List.mem_cons, not_or] at h
    obtain ⟨h1, h2⟩ := h
    have hx : (x == c) = false := beq_eq_false_iff_ne.mpr (fun he => h1 he.symm)
    simp [splitAtFirstChar, hx, ih h2]

/-- Helper: splitting at the last occurrence of a character recovers the
parts around it when the suffix does not contain it. -/
theorem splitAtLastChar_append (c : Char) (xs ys : List Char) (h : c ∉ ys) :
    splitAtLastChar c (xs ++ c :: ys) = some (xs, ys) := by
  unfold splitAtLastChar
  have hrev : (xs ++ c :: ys).reverse = ys.reverse ++ c :: xs.reverse := by
    simp
  rw [hrev, splitAtFirstChar_append c ys.reverse xs.reverse (by simpa using h)]
  simp

/-- Helper: a well-formed image id never contains the id separator. -/
theorem isImageID_no_amp (cs : List Char) (h : isImageID cs = true) : '@' ∉ cs := by
  intro hmem
  unfold isImageID at h
  rw [Bool.and_eq_true] at h
  have h2 := h.2
  rw [List.all_eq_true] at h2
  exact absurd (h2 '@' hmem) (by decide)

/-- C7: re-parsing the string StringWithinTransport produces through the
transport parser yields the same store locator and the same name and id
pair, for every valid reference. -/
theorem storage_reference_roundtrip (st : StoreC) (r : StorageRefC)
    (h : validStorageRefC st r) :
    parseStorageRefC (stringWithinTransportC st r) = some (specInteriorC st, r) := by
  obtain ⟨hspec, hhead, hid, hnosuf⟩ := h
  obtain ⟨rref, rid⟩ := r
  dsimp only at hhead hid hnosuf
  unfold stringWithinTransportC
  dsimp only
  by_cases h1 : rref = []
  · subst h1
    rw [if_pos rfl]
    have heq : storeSpecC st ++ '@' :: rid = '[' :: (specInteriorC st ++ ']' :: '@' :: rid) := by
      simp [storeSpecC]
    rw [heq]
    unfold parseStorageRefC
    rw [List.head?_cons, List.tail_cons, if_pos (by decide : (some '[' == some '[') = true),
      splitAtFirstChar_append ']' (specInteriorC st) ('@' :: rid) hspec]
    simp
  · obtain ⟨x, xs, rfl⟩ : ∃ x xs, rref = x :: xs := by
      cases rref with
      | nil => exact absurd rfl h1
      | cons x xs => exact ⟨x, xs, rfl⟩
    have hx : x ≠ '@' := by
      have hh := hhead (by simp)
      simpa using hh
    have hxb : (some x == some '@') = false := by
      simp [hx]
    rw [if_neg h1]
    by_cases h2 : rid = []
    · rw [if_pos h2]
      have heq : storeSpecC st ++ x :: xs = '[' :: (specInteriorC st ++ ']' :: x :: xs) := by
        simp [storeSpecC]
      rw [heq]
      unfold parseStorageRefC
      rw [List.head?_cons, List.tail_cons, if_pos (by decide : (some '[' == some '[') = true),
        splitAtFirstChar_append ']' (specInteriorC st) (x :: xs) hspec]
      dsimp only
      rw [List.head?_cons, if_neg (by simp [hxb])]
      cases hsl : splitAtLastChar '@' (x :: xs) with
      | none => simp [hsl, h2]
      | some p =>
        obtain ⟨front, back⟩ := p
        have hfalse := hnosuf h2 front back hsl
        simp [hsl, hfalse, h2]
    · rw [if_neg h2]
      have hisid : isImageID rid = true := by
        rcases hid with h | h
        · exact absurd h h2
        · exact h
      have heq : storeSpecC st ++ (x :: xs) ++ '@' :: rid =
          '[' :: (specInteriorC st ++ ']' :: ((x :: xs) ++ '@' :: rid)) := by
        simp [storeSpecC]
      rw [heq]
      unfold parseStorageRefC
      rw [List.head?_cons, List.tail_cons, if_pos (by decide : (some '[' == some '[') = true),
        splitAtFirstChar_append ']' (specInteriorC st) ((x :: xs) ++ '@' :: rid) hspec]
      dsimp only
      have hsl : splitAtLastChar '@' ((x :: xs) ++ '@' :: rid) = some (x :: xs, rid) :=
        splitAtLastChar_append '@' (x :: xs) rid (isImageID_no_amp rid hisid)
      rw [List.cons_append, List.head?_cons, if_neg (by simp [hxb])]
      rw [List.cons_append] at hsl
      rw [hsl]
      simp [hisid]

/-- C7 witness: a concrete store, name and id round trip exactly. -/
theorem storage_reference_roundtrip_witness :
    parseStorageRefC (stringWithinTransportC
      { graphDriverName := "overlay".data, graphRoot := "/v".data, runRoot := "/r".data,
        graphOptions := [] }
      { reference := "repo/a:t".data,
        id := "0123456789abcdef0123456789abcdef0123456789abcdef0123456789abcdef".data }) =
      some (specInteriorC
        { graphDriverName := "overlay".data, graphRoot := "/v".data, runRoot := "/r".data,
          graphOptions := [] },
        { reference := "repo/a:t".data,
          id := "0123456789abcdef0123456789abcdef0123456789abcdef0123456789abcdef".data }) :=
  storage_reference_roundtrip
    { graphDriverName := "overlay".data, graphRoot := "/v".data, runRoot := "/r".data,
      graphOptions := [] }
    { reference := "repo/a:t".data,
      id := "0123456789abcdef0123456789abcdef0123456789abcdef0123456789abcdef".data }
    ⟨by decide, by decide, Or.inr (by decide), fun hcontra => absurd hcontra (by decide)⟩
